import Mathlib

/-!
Shallow embedding of `src/MediaMetadataUpdater/v2/MediaMetadataUpdater.py`:
the timestamp-extraction rule chain, the per-file worker `process_file`,
the move helpers (`safe_move`, `move_to_manual`), the worker-count
computation and the scan/aggregation loop of `main`.  File-system and
subprocess effects are passed in explicitly (see `PFInput`), so every
definition is executable on concrete inputs.
-/

namespace MMU

/-- A value of the Python `datetime` class as produced by the script
(`datetime.strptime` or the `datetime(...)` constructor). -/
structure PyDateTime where
  year : Nat
  month : Nat
  day : Nat
  hour : Nat
  minute : Nat
  second : Nat
  microsecond : Nat
deriving DecidableEq, Repr

/-- Gregorian leap-year rule used by Python `datetime`. -/
def isLeapYear (y : Nat) : Bool :=
  y % 4 == 0 && (y % 100 != 0 || y % 400 == 0)

/-- Days in a month, as validated by the Python `datetime` constructor. -/
def daysInMonth (y m : Nat) : Nat :=
  if m == 2 then (if isLeapYear y then 29 else 28)
  else if m == 4 || m == 6 || m == 9 || m == 11 then 30 else 31

/-- The Python `datetime(year, month, day, hour, minute, second, microsecond)`
constructor: it raises `ValueError` (modelled as `none`) unless every field is
in range; the day range depends on month and leap year. -/
def mkDateTime (y m d hh mi ss us : Nat) : Option PyDateTime :=
  if 1 ≤ y ∧ y ≤ 9999 ∧ 1 ≤ m ∧ m ≤ 12 ∧ 1 ≤ d ∧ d ≤ daysInMonth y m
      ∧ hh ≤ 23 ∧ mi ≤ 59 ∧ ss ≤ 59 ∧ us ≤ 999999
  then some ⟨y, m, d, hh, mi, ss, us⟩ else none

/-- Numeric value of an ASCII digit character. -/
def digitVal (c : Char) : Nat := c.toNat - 48

/-- Value of a list of decimal digit characters, most significant first:
Python `int(s)` restricted to the all-digit strings the script feeds it. -/
def digitsVal (l : List Char) : Nat :=
  l.foldl (fun a c => a * 10 + digitVal c) 0

/-- Python `int(s)` on the all-digit strings built by the script. -/
def pyIntDigits (s : String) : Nat := digitsVal s.data

/-- The ASCII whitespace characters accepted by Python `\s` and `str.strip`
(the script only ever meets ASCII whitespace in the claims at hand). -/
def pyIsSpace (c : Char) : Bool :=
  c == ' ' || c == '\t' || c == '\n' || c == '\x0b' || c == '\x0c' || c == '\r'

/-- Python `str.strip()`: drop whitespace from both ends. -/
def pyStrip (s : String) : String :=
  ⟨((s.data.dropWhile pyIsSpace).reverse.dropWhile pyIsSpace).reverse⟩

/-- Contiguous-substring test: Python `needle in hay` on strings. -/
def listContains (hay needle : List Char) : Bool :=
  match hay with
  | [] => needle.isEmpty
  | _ :: t => needle.isPrefixOf hay || listContains t needle

/-- Python `needle in hay` for strings. -/
def containsSubstr (hay needle : String) : Bool :=
  listContains hay.data needle.data

/-- `os.path.join` as used by the script (second component never absolute). -/
def joinPath (a b : String) : String := a ++ "/" ++ b

/-- The RIFF-mismatch signature the worker looks for in exiftool stderr. -/
def riffSig : String := "Not a valid JPG (looks more like a RIFF)"

/-!
## Pattern rules

A catalog rule (an entry of `pattern.json`, or a built-in rule) is a compiled
regex plus a capture-group index plus a list of `strptime` format strings.
We embed a rule as the function its regex-plus-group denotes (filename to
captured text) together with the parse functions its formats denote. -/

/-- One extraction rule: `{regex, group, formats}` of the script. -/
structure Rule where
  matcher : String → Option String
  formats : List (String → Option PyDateTime)

/-- The inner loop of `process_file`: try each format of a rule in order on
the captured text; first successful `strptime` wins. -/
def tryFormats (ts : String) : List (String → Option PyDateTime) → Option PyDateTime
  | [] => none
  | f :: rest =>
    match f ts with
    | some dt => some dt
    | none => tryFormats ts rest

/-- The outer loop of `process_file` over the catalog: for each rule in
order, if its regex matches, try its formats; on parse success stop
(`if dt: break`), otherwise continue with the next rule. -/
def catalogExtract : List Rule → String → Option (PyDateTime × String)
  | [], _ => none
  | r :: rest, fname =>
    match r.matcher fname with
    | none => catalogExtract rest fname
    | some ts =>
      match tryFormats ts r.formats with
      | some dt => some (dt, ts)
      | none => catalogExtract rest fname

/-!
### Built-in catalog

The three built-in rules of the script (used when `pattern.json` is missing,
malformed, or empty).  Their regexes are matched with Python `re.match`
semantics: anchored at the start, `.` not matching a newline, greedy `(.*)`
resolved by taking the rightmost viable split. -/

/-- Exactly `n` ASCII digits: returns them and the remaining characters. -/
def takeDigits : Nat → List Char → Option (List Char × List Char)
  | 0, l => some ([], l)
  | _ + 1, [] => none
  | n + 1, c :: l =>
    if c.isDigit then
      match takeDigits n l with
      | some (ds, rest) => some (c :: ds, rest)
      | none => none
    else none

/-- Require one given literal character. -/
def expectChar (c : Char) : List Char → Option (List Char)
  | x :: rest => if x == c then some rest else none
  | [] => none

/-- The capture shape `\d{4}-\d{2}-\d{2}T\d{6}(?:\.\d{3})?Z` shared by the
two marker rules; returns the captured characters.  The optional fractional
group is greedy: if a dot follows the six digits it must be a valid
`.\d{3}Z` tail (a failing optional group cannot backtrack into a bare `Z`
because the next character is the dot itself). -/
def isoCore (l : List Char) : Option (List Char) := do
  let (y, l) ← takeDigits 4 l
  let l ← expectChar '-' l
  let (mo, l) ← takeDigits 2 l
  let l ← expectChar '-' l
  let (d, l) ← takeDigits 2 l
  let l ← expectChar 'T' l
  let (hms, l) ← takeDigits 6 l
  match l with
  | '.' :: l2 =>
    match takeDigits 3 l2 with
    | some (f, 'Z' :: _) =>
      pure (y ++ ['-'] ++ mo ++ ['-'] ++ d ++ ['T'] ++ hms ++ ['.'] ++ f ++ ['Z'])
    | _ => none
  | 'Z' :: _ => pure (y ++ ['-'] ++ mo ++ ['-'] ++ d ++ ['T'] ++ hms ++ ['Z'])
  | _ => none

/-- One candidate split for `^(.*)MARKER(date).*`: prefix of length `i`
(which `.` forbids to contain a newline), then the marker, then the date
shape; returns the group-2 capture. -/
def splitValid (marker : List Char) (l : List Char) (i : Nat) : Option String :=
  let pre := l.take i
  let post := l.drop i
  if pre.all (fun c => c != '\n') && marker.isPrefixOf post then
    (isoCore (post.drop marker.length)).map (fun d => ⟨d⟩)
  else none

/-- `re.match` of `^(.*)MARKER(\d{4}-\d{2}-\d{2}T\d{6}(?:\.\d{3})?Z).*` with
`group(2)`: the greedy `(.*)` takes the rightmost split that lets the rest
of the pattern match, hence `getLast?` over candidate splits in increasing
prefix length. -/
def matchMarkerIso (marker : List Char) (fname : String) : Option String :=
  let l := fname.data
  ((List.range (l.length + 1)).filterMap (fun i => splitValid marker l i)).getLast?

/-- `re.match` of `^(\d{4}-\d{2}-\d{2} \d{2}\.\d{2}\.\d{2}).*` with
`group(1)`: a fixed-shape 19-character prefix. -/
def matchDotted (fname : String) : Option String := do
  let l := fname.data
  let (_, l) ← takeDigits 4 l
  let l ← expectChar '-' l
  let (_, l) ← takeDigits 2 l
  let l ← expectChar '-' l
  let (_, l) ← takeDigits 2 l
  let l ← expectChar ' ' l
  let (_, l) ← takeDigits 2 l
  let l ← expectChar '.' l
  let (_, l) ← takeDigits 2 l
  let l ← expectChar '.' l
  let (_, _) ← takeDigits 2 l
  pure ⟨fname.data.take 19⟩

/-- Microseconds from a fractional-digit capture: `%f` left-justifies the
1..6 digits to six places (`.123` means 123000 microseconds). -/
def fracVal (f : List Char) : Nat := digitsVal f * 10 ^ (6 - f.length)

/-- `datetime.strptime(s, "%Y-%m-%dT%H%M%S.%fZ")` on the capture shapes the
catalog rules produce.  The `_strptime` regex fragments reduce, on a
two-digit field followed by a non-digit delimiter or another two-digit
field, to the range checks below (month 01..12, day 01..31, hour 00..23,
minute and second 00..59); the `datetime` constructor then checks the day
against the month, which `mkDateTime` performs. -/
def fmtIsoFrac (s : String) : Option PyDateTime := do
  let l := s.data
  let (y, l) ← takeDigits 4 l
  let l ← expectChar '-' l
  let (mo, l) ← takeDigits 2 l
  let l ← expectChar '-' l
  let (d, l) ← takeDigits 2 l
  let l ← expectChar 'T' l
  let (hh, l) ← takeDigits 2 l
  let (mi, l) ← takeDigits 2 l
  let (ss, l) ← takeDigits 2 l
  let l ← expectChar '.' l
  let (f, l) ← takeDigits 3 l
  let l ← expectChar 'Z' l
  match l with
  | [] => mkDateTime (digitsVal y) (digitsVal mo) (digitsVal d) (digitsVal hh) (digitsVal mi) (digitsVal ss) (fracVal f)
  | _ => none

/-- `datetime.strptime(s, "%Y-%m-%dT%H%M%SZ")` on the capture shapes the
catalog rules produce (see `fmtIsoFrac`). -/
def fmtIso (s : String) : Option PyDateTime := do
  let l := s.data
  let (y, l) ← takeDigits 4 l
  let l ← expectChar '-' l
  let (mo, l) ← takeDigits 2 l
  let l ← expectChar '-' l
  let (d, l) ← takeDigits 2 l
  let l ← expectChar 'T' l
  let (hh, l) ← takeDigits 2 l
  let (mi, l) ← takeDigits 2 l
  let (ss, l) ← takeDigits 2 l
  let l ← expectChar 'Z' l
  match l with
  | [] => mkDateTime (digitsVal y) (digitsVal mo) (digitsVal d) (digitsVal hh) (digitsVal mi) (digitsVal ss) 0
  | _ => none

/-- `datetime.strptime(s, "%Y-%m-%d %H.%M.%S")` on the capture shape of the
dotted built-in rule (see `fmtIsoFrac`). -/
def fmtDotted (s : String) : Option PyDateTime := do
  let l := s.data
  let (y, l) ← takeDigits 4 l
  let l ← expectChar '-' l
  let (mo, l) ← takeDigits 2 l
  let l ← expectChar '-' l
  let (d, l) ← takeDigits 2 l
  let l ← expectChar ' ' l
  let (hh, l) ← takeDigits 2 l
  let l ← expectChar '.' l
  let (mi, l) ← takeDigits 2 l
  let l ← expectChar '.' l
  let (ss, l) ← takeDigits 2 l
  match l with
  | [] => mkDateTime (digitsVal y) (digitsVal mo) (digitsVal d) (digitsVal hh) (digitsVal mi) (digitsVal ss) 0
  | _ => none

/-- `builtin_patterns` of the script: two marker rules and the dotted rule. -/
def builtin_patterns : List Rule :=
  [⟨matchMarkerIso ['=', '_', '='], [fmtIsoFrac, fmtIso]⟩,
   ⟨matchMarkerIso ['_', '_'], [fmtIsoFrac, fmtIso]⟩,
   ⟨matchDotted, [fmtDotted]⟩]

/-- `patterns = external if external else builtin_patterns`: `None` (file
missing or malformed) and the empty list are both falsy in Python. -/
def resolvePatterns (external : Option (List Rule)) : List Rule :=
  match external with
  | some ps => if ps.isEmpty then builtin_patterns else ps
  | none => builtin_patterns

/-!
### Built-in fallback patterns -/

/-- `re.match` of `^(\d{2})(\d{2})(\d{2})\s+.*`: six digits then at least
one whitespace character; the trailing `.*` is always satisfiable.  Returns
the three two-character groups. -/
def pattern_fb_space (fname : String) : Option (String × String × String) :=
  match fname.data with
  | c0 :: c1 :: c2 :: c3 :: c4 :: c5 :: c6 :: _ =>
    if c0.isDigit && c1.isDigit && c2.isDigit && c3.isDigit && c4.isDigit
        && c5.isDigit && pyIsSpace c6
    then some (⟨[c0, c1]⟩, ⟨[c2, c3]⟩, ⟨[c4, c5]⟩) else none
  | _ => none

/-- `re.match` of `^(\d{2})(\d{2})(\d{2})-.*`: six digits then a dash. -/
def pattern_fb_dash (fname : String) : Option (String × String × String) :=
  match fname.data with
  | c0 :: c1 :: c2 :: c3 :: c4 :: c5 :: c6 :: _ =>
    if c0.isDigit && c1.isDigit && c2.isDigit && c3.isDigit && c4.isDigit
        && c5.isDigit && c6 == '-'
    then some (⟨[c0, c1]⟩, ⟨[c2, c3]⟩, ⟨[c4, c5]⟩) else none
  | _ => none

/-!
## Move helpers

Moves are modelled by the name they pick in the destination directory,
given the list of names already present there. -/

/-- Decimal rendering of a natural number (Python `str(counter)`); the fuel
argument strictly dominates the number so the recursion is structural. -/
def natToStrAux : Nat → Nat → List Char
  | 0, _ => []
  | fuel + 1, n =>
    if n < 10 then [Nat.digitChar n]
    else natToStrAux fuel (n / 10) ++ [Nat.digitChar (n % 10)]

/-- Python `str(n)` for a natural number. -/
def natToStr (n : Nat) : String := ⟨natToStrAux (n + 1) n⟩

/-- Index of the last dot in a list of characters (`str.rfind`). -/
def lastDotIdx (l : List Char) : Option Nat :=
  match l.reverse.findIdx? (fun c => c == '.') with
  | some j => some (l.length - 1 - j)
  | none => none

/-- `os.path.splitext` on a basename (no path separators): split at the
last dot, unless every character before it is itself a dot (a leading-dot
name such as `.bashrc` has no extension). -/
def splitext (base : String) : String × String :=
  match lastDotIdx base.data with
  | none => (base, "")
  | some i =>
    if (base.data.take i).all (fun c => c == '.') then (base, "")
    else (⟨base.data.take i⟩, ⟨base.data.drop i⟩)

/-- The candidate name `f"{name} ({counter}){ext}"` of `move_to_manual`. -/
def mkCand (name ext : String) (counter : Nat) : String :=
  name ++ " (" ++ natToStr counter ++ ")" ++ ext

/-- The `while True` probe of `move_to_manual`, counting upward from
`counter` until the candidate name is free.  The fuel argument replaces the
unbounded loop; `probeFree_not_mem` below shows a free name always exists
within `existing.length + 1` probes, so the bound never binds. -/
def probeFree (existing : List String) (name ext : String) : Nat → Nat → String
  | 0, counter => mkCand name ext counter
  | fuel + 1, counter =>
    if mkCand name ext counter ∈ existing then probeFree existing name ext fuel (counter + 1)
    else mkCand name ext counter

/-- The destination basename chosen by `move_to_manual`, given the names
already present in the `manual` directory: the original basename if free,
otherwise the first `name (counter)ext` that is free, counting from 1. -/
def move_to_manual_name (existing : List String) (base : String) : String :=
  if base ∈ existing then
    probeFree existing (splitext base).1 (splitext base).2 (existing.length + 1) 1
  else base

/-- The destination basename chosen by `safe_move` (used by `move_to_riff`
and `move_to_failed`): always the original basename — the destination
directory contents are never consulted, and `shutil.copy2` overwrites an
existing file of the same name. -/
def safe_move_basename (_dstExisting : List String) (base : String) : String :=
  base

/-!
## The per-file worker `process_file`

File-system and subprocess effects are inputs: whether the path is still a
regular file, the two size reads (`none` for `OSError`), the catalog that
`load_external_patterns` produced for this call (`none` for a missing or
malformed `pattern.json`), and the exiftool result. -/

/-- Result of the exiftool subprocess: return code and stderr text. -/
structure ToolResult where
  returncode : Int
  stderr : String

/-- Holding directories a worker can move a file to. -/
inductive Dest
  | riff
  | failed
  | manual
deriving DecidableEq, Repr

/-- The tuple `(fname, message, status, sizes)` returned by `process_file`,
plus the move the worker performed on the way (`none` when the file stayed
in place). -/
structure Outcome where
  fname : String
  msg : Option String
  status : String
  sizes : Option (Nat × Nat)
  moved : Option Dest
deriving DecidableEq, Repr

/-- The effects visible to one `process_file` call. -/
structure PFInput where
  fname : String
  isFile : Bool
  sizeBefore : Option Nat
  externalPatterns : Option (List Rule)
  tool : ToolResult
  sizeAfter : Option Nat

/-- Path of a file moved to the `riff` holding directory. -/
def riffPath (cwd fname : String) : String := joinPath (joinPath cwd "riff") fname

/-- Path of a file moved to the `failed` holding directory. -/
def failedPath (cwd fname : String) : String := joinPath (joinPath cwd "failed") fname

/-- The tail of `process_file` once a timestamp has been resolved: run
exiftool; on success report `match`; on failure inspect stripped stderr for
the RIFF signature and move to `riff` or `failed`.  A failed `size_after`
read degrades to `size_before`. -/
def runTool (cwd : String) (inp : PFInput) (size_before : Nat) (ts : String) : Outcome :=
  let size_after := inp.sizeAfter.getD size_before
  if inp.tool.returncode == 0 then
    ⟨inp.fname, some ts, "match", some (size_before, size_after), none⟩
  else
    let err := pyStrip inp.tool.stderr
    if containsSubstr err riffSig then
      ⟨inp.fname, some ("RIFF detected → moved to " ++ riffPath cwd inp.fname),
        "notmatch", some (size_before, size_after), some .riff⟩
    else
      ⟨inp.fname, some ("Exiftool error: " ++ err ++ " → moved to " ++ failedPath cwd inp.fname),
        "notmatch", some (size_before, size_after), some .failed⟩

/-- `process_file` of the script.  The resolved `datetime` value is only
used to build the exiftool command line, so it does not appear in the
outcome; the fallback timestamp string is `f"20{yy}-{mm}-{dd}"`. -/
def process_file (cwd : String) (inp : PFInput) : Outcome :=
  if !inp.isFile then ⟨inp.fname, none, "skip", none, none⟩
  else
    match inp.sizeBefore with
    | none => ⟨inp.fname, none, "error_size_before", none, none⟩
    | some size_before =>
      match catalogExtract (resolvePatterns inp.externalPatterns) inp.fname with
      | some (_, ts) => runTool cwd inp size_before ts
      | none =>
        match pattern_fb_space inp.fname with
        | some (yy, mm, dd) =>
          match mkDateTime (pyIntDigits ("20" ++ yy)) (pyIntDigits mm) (pyIntDigits dd) 0 0 0 0 with
          | some _ => runTool cwd inp size_before ("20" ++ yy ++ "-" ++ mm ++ "-" ++ dd)
          | none =>
            ⟨inp.fname, some ("Fallback1 YYMMDD parse error → moved to " ++ failedPath cwd inp.fname),
              "notmatch", some (size_before, size_before), some .failed⟩
        | none =>
          match pattern_fb_dash inp.fname with
          | some (yy, mm, dd) =>
            match mkDateTime (pyIntDigits ("20" ++ yy)) (pyIntDigits mm) (pyIntDigits dd) 0 0 0 0 with
            | some _ => runTool cwd inp size_before ("20" ++ yy ++ "-" ++ mm ++ "-" ++ dd)
            | none =>
              ⟨inp.fname, some ("Fallback2 YYMMDD parse error → moved to " ++ failedPath cwd inp.fname),
                "notmatch", some (size_before, size_before), some .failed⟩
          | none =>
            ⟨inp.fname, some ("No pattern matched → moved to " ++ failedPath cwd inp.fname),
              "notmatch", some (size_before, size_before), some .failed⟩

/-!
## `main`: worker count, scan and aggregation -/

/-- The parsed `--workers` argument: the literal string `all` (case folded),
an integer, or a string `int()` rejects. -/
inductive WorkersArg
  | all
  | num (pct : Int)
  | invalid

/-- The worker-count computation of `main`.  The script computes
`math.floor(total_threads * (pct / 100))` with float division; the floor of
the exact rational is used here — the bounds proved about it hold for the
float evaluation as well, since `total_threads` is exact in a double and the
factor is at most 1. -/
def workerCount (arg : WorkersArg) (total_threads : Nat) : Nat :=
  match arg with
  | .all => total_threads
  | .num pct =>
    let p := max 1 (min pct 100)
    max 1 (total_threads * p.toNat / 100)
  | .invalid => max 1 (total_threads * 80 / 100)

/-- The `summary` dictionary. -/
structure Summary where
  total : Nat
  matched : Nat
  notmatched : Nat
  skipped : Nat
  increased : Nat
  decreased : Nat
deriving DecidableEq, Repr

/-- A top-level entry met during the scan: a subdirectory, or anything else
(queued for `process_file` with its per-call effects). -/
inductive ScanEntry
  | dir (name : String)
  | file (inp : PFInput)

/-- Names of the top-level subdirectories, in scan order. -/
def dirNames : List ScanEntry → List String
  | [] => []
  | .dir n :: es => n :: dirNames es
  | .file _ :: es => dirNames es

/-- The non-directory entries (`all_files`), in scan order. -/
def fileInputs : List ScanEntry → List PFInput
  | [] => []
  | .dir _ :: es => fileInputs es
  | .file i :: es => i :: fileInputs es

/-- The summary after the scan loop: `total = len(all_files)`, `skipped`
already holds one count per top-level directory, all other counters zero. -/
def initSummary (es : List ScanEntry) : Summary :=
  { total := (fileInputs es).length, matched := 0, notmatched := 0,
    skipped := (dirNames es).length, increased := 0, decreased := 0 }

/-- The status branch of the aggregation loop. -/
def applyStatus (s : Summary) (o : Outcome) : Summary :=
  match o.status with
  | "match" => { s with matched := s.matched + 1 }
  | "notmatch" => { s with notmatched := s.notmatched + 1 }
  | "skip" => { s with skipped := s.skipped + 1 }
  | _ => { s with notmatched := s.notmatched + 1 }

/-- The `if sizes:` branch of the aggregation loop. -/
def applySizes (s : Summary) (o : Outcome) : Summary :=
  match o.sizes with
  | some (b, a) =>
    if a > b then { s with increased := s.increased + 1 }
    else if a < b then { s with decreased := s.decreased + 1 }
    else s
  | none => s

/-- One iteration of the aggregation loop for one completed outcome. -/
def applyOutcome (s : Summary) (o : Outcome) : Summary :=
  applySizes (applyStatus s o) o

/-- The outcomes of one run, in scan order.  `as_completed` delivers them
in a nondeterministic order; every property proved below is invariant under
permutation (counters and line multisets), so scan order stands in for any
completion order. -/
def runOutcomes (cwd : String) (es : List ScanEntry) : List Outcome :=
  (fileInputs es).map (process_file cwd)

/-- The finalized summary of one run. -/
def runSummary (cwd : String) (es : List ScanEntry) : Summary :=
  (runOutcomes cwd es).foldl applyOutcome (initSummary es)

/-- Lines the not-match log receives for one completed outcome: `match` and
`skip` write nothing, `notmatch` writes the diagnostic, any other status
writes the fixed `Unknown error` line. -/
def outcomeNotMatchLines (o : Outcome) : List String :=
  match o.status with
  | "match" => []
  | "notmatch" => [o.fname ++ " --> " ++ o.msg.getD "None"]
  | "skip" => []
  | _ => [o.fname ++ " --> Unknown error"]

/-- Lines the size-change log receives for one completed outcome. -/
def outcomeSizeLines (o : Outcome) : List String :=
  match o.sizes with
  | some (b, a) =>
    if a > b then
      [o.fname ++ " --> size increased (" ++ natToStr b ++ " → " ++ natToStr a ++ " bytes)"]
    else if a < b then
      [o.fname ++ " --> size decreased (" ++ natToStr b ++ " → " ++ natToStr a ++ " bytes)"]
    else []
  | none => []

/-- The `skipped directory` lines the scan loop appends to the not-match
log (the log is opened in append mode at this point, so these lines land
after whatever a previous run left in the file). -/
def scanNotMatchLines (es : List ScanEntry) : List String :=
  (dirNames es).map (fun n => n ++ " --> skipped directory")

/-- Content of the not-match log after the scan loop, given the content
`prev` the file had when the run started. -/
def notMatchLogAfterScan (prev : List String) (es : List ScanEntry) : List String :=
  prev ++ scanNotMatchLines es

/-- Content of the not-match log when the run completes: the processing
phase reopens the log with mode `"w"`, truncating everything written so
far (including the scan lines), and then writes one line per non-matching
outcome. -/
def finalNotMatchLog (cwd : String) (es : List ScanEntry) : List String :=
  ((runOutcomes cwd es).map outcomeNotMatchLines).flatten

/-!
## Concrete external rules used in counterexamples and witnesses

These model a loadable `pattern.json`: rule `ruleXstar` is
`{"regex": "^(x.*)", "group": 1, "formats": ["%Y"]}` and rule
`ruleXdigits` is `{"regex": "^x(\\d{4})", "group": 1, "formats": ["%Y"]}`. -/

/-- `re.match` of `^(x.*)` with `group(1)`: a leading `x` then greedily
everything up to a newline. -/
def matchXstar (fname : String) : Option String :=
  match fname.data with
  | c :: rest =>
    if c == 'x' then some ⟨'x' :: rest.takeWhile (fun ch => ch != '\n')⟩ else none
  | [] => none

/-- `re.match` of `^x(\d{4})` with `group(1)`. -/
def matchXdigits (fname : String) : Option String :=
  match fname.data with
  | c :: d1 :: d2 :: d3 :: d4 :: _ =>
    if c == 'x' && d1.isDigit && d2.isDigit && d3.isDigit && d4.isDigit
    then some ⟨[d1, d2, d3, d4]⟩ else none
  | _ => none

/-- `datetime.strptime(s, "%Y")`: exactly four digits; the `datetime`
constructor then requires year at least 1 (so `0000` raises). -/
def fmtY (s : String) : Option PyDateTime :=
  match s.data with
  | [a, b, c, d] =>
    if a.isDigit && b.isDigit && c.isDigit && d.isDigit then
      mkDateTime (pyIntDigits s) 1 1 0 0 0 0
    else none
  | _ => none

/-- The rule `{"regex": "^(x.*)", "group": 1, "formats": ["%Y"]}`. -/
def ruleXstar : Rule := ⟨matchXstar, [fmtY]⟩

/-- The rule `{"regex": "^x(\\d{4})", "group": 1, "formats": ["%Y"]}`. -/
def ruleXdigits : Rule := ⟨matchXdigits, [fmtY]⟩

/-- A filename that matches the first built-in rule structurally while both
of that rule`s formats reject the captured text (month 13), and whose
prefix also matches the third built-in rule with a parseable timestamp. -/
def fnameC1 : String := "2023-05-01 14.30.00=_=2023-13-01T143000Z.jpg"

/-- Worker input for the C3 witness: a fallback-shaped name with an
impossible calendar date, processed under a loaded external catalog whose
single rule does not match it. -/
def inpC3 : PFInput := ⟨"131301 x", true, some 7, some [ruleXstar], ⟨0, ""⟩, none⟩

/-- Worker input for the C4 theorems: extraction succeeds via the external
rule, exiftool fails with stderr containing the RIFF signature amid other
diagnostic text. -/
def inpC4 : PFInput :=
  ⟨"x2023", true, some 100, some [ruleXdigits],
    ⟨1, "junk Not a valid JPG (looks more like a RIFF)"⟩, some 100⟩

/-- Worker input for the C5 witness: the file vanished between enumeration
and processing. -/
def inpVanished : PFInput := ⟨"gone.jpg", false, none, none, ⟨0, ""⟩, none⟩

/-- An all-zero summary. -/
def s0 : Summary := ⟨0, 0, 0, 0, 0, 0⟩

/-!
## Helper lemmas -/

theorem append_left_ne (x y p : String) (hlen : x.length ≠ y.length) : x ++ p ≠ y ++ p := by
  intro h
  have hl := congrArg String.length h
  rw [String.length_append, String.length_append] at hl
  omega

theorem applyOutcome_total (s : Summary) (o : Outcome) : (applyOutcome s o).total = s.total := by
  unfold applyOutcome applySizes applyStatus
  repeat' split
  all_goals rfl

theorem applyOutcome_sum (s : Summary) (o : Outcome) :
    (applyOutcome s o).matched + (applyOutcome s o).notmatched + (applyOutcome s o).skipped
      = s.matched + s.notmatched + s.skipped + 1 := by
  unfold applyOutcome applySizes applyStatus
  repeat' split
  all_goals simp_arith

theorem foldl_applyOutcome_counts (outs : List Outcome) : ∀ s : Summary,
    ((outs.foldl applyOutcome s).matched + (outs.foldl applyOutcome s).notmatched
        + (outs.foldl applyOutcome s).skipped
      = s.matched + s.notmatched + s.skipped + outs.length)
    ∧ (outs.foldl applyOutcome s).total = s.total := by
  induction outs with
  | nil => intro s; simp
  | cons o rest ih =>
    intro s
    simp only [List.foldl_cons, List.length_cons]
    have h1 := applyOutcome_sum s o
    have h2 := applyOutcome_total s o
    have h3 := ih (applyOutcome s o)
    exact ⟨by omega, by rw [h3.2, h2]⟩

/-!
## C1 -/

/-- C1 (counterexample): the first built-in rule matches `fnameC1`
structurally, none of its formats parse the captured text, and yet the
extraction result is not `NoMatch`: the loop falls through and the third
built-in rule produces a timestamp. -/
theorem catalogExtract_fallthrough_counterexample :
    matchMarkerIso ['=', '_', '='] fnameC1 = some "2023-13-01T143000Z"
      ∧ tryFormats "2023-13-01T143000Z" [fmtIsoFrac, fmtIso] = none
      ∧ catalogExtract builtin_patterns fnameC1
          = some (⟨2023, 5, 1, 14, 30, 0, 0⟩, "2023-05-01 14.30.00") := by
  refine ⟨?_, ?_, ?_⟩ <;> rfl

/-- C1 (amended): when a catalog rule matches structurally but none of its
formats parse the captured text, the extractor falls through to the
remaining catalog rules (the overall result is `NoMatch` only if they, and
then the two built-in fallbacks, also fail). -/
theorem catalogExtract_fallthrough (r : Rule) (rest : List Rule) (fname ts : String)
    (hm : r.matcher fname = some ts) (hp : tryFormats ts r.formats = none) :
    catalogExtract (r :: rest) fname = catalogExtract rest fname := by
  simp only [catalogExtract, hm, hp]

/-- C1 witness: the amended fall-through equation at `fnameC1` under the
built-in catalog. -/
theorem catalogExtract_fallthrough_witness :
    catalogExtract builtin_patterns fnameC1
      = catalogExtract
          [⟨matchMarkerIso ['_', '_'], [fmtIsoFrac, fmtIso]⟩, ⟨matchDotted, [fmtDotted]⟩]
          fnameC1 :=
  catalogExtract_fallthrough ⟨matchMarkerIso ['=', '_', '='], [fmtIsoFrac, fmtIso]⟩
    [⟨matchMarkerIso ['_', '_'], [fmtIsoFrac, fmtIso]⟩, ⟨matchDotted, [fmtDotted]⟩]
    fnameC1 "2023-13-01T143000Z" (by rfl) (by rfl)

/-!
## C2 -/

/-- C2 (counterexample): a run over one top-level subdirectory and no files
finalizes with `total = 0` but `matched + notmatched + skipped = 1`, so the
claimed invariant `total == matched + notMatched + skipped` fails. -/
theorem summary_invariant_counterexample :
    ¬ ((runSummary "/data" [ScanEntry.dir "thumbnails"]).total
        = (runSummary "/data" [ScanEntry.dir "thumbnails"]).matched
          + (runSummary "/data" [ScanEntry.dir "thumbnails"]).notmatched
          + (runSummary "/data" [ScanEntry.dir "thumbnails"]).skipped) := by
  decide

/-- C2 (amended): for every run, `total` plus the number of top-level
directories equals `matched + notmatched + skipped`: `total` counts only
files, while `skipped` counts top-level directories as well as files whose
task was skipped, so the claimed form holds exactly when no top-level
subdirectory is met. -/
theorem summary_invariant (cwd : String) (es : List ScanEntry) :
    (runSummary cwd es).total + (dirNames es).length
      = (runSummary cwd es).matched + (runSummary cwd es).notmatched
        + (runSummary cwd es).skipped := by
  unfold runSummary runOutcomes
  have h := foldl_applyOutcome_counts ((fileInputs es).map (process_file cwd)) (initSummary es)
  rw [h.2, h.1]
  simp only [initSummary, List.length_map]
  omega

/-!
## C7 -/

/-- C7 (code bug): the scan loop appends the `skipped directory` line to
the not-match log, but the processing phase then reopens that log with mode
`"w"`, truncating it; for an input directory holding a single subdirectory
the completed run leaves an empty not-match log without the line. -/
theorem skipped_dir_line_truncated :
    "thumbnails --> skipped directory"
        ∈ notMatchLogAfterScan [] [ScanEntry.dir "thumbnails"]
      ∧ finalNotMatchLog "/data" [ScanEntry.dir "thumbnails"] = [] := by
  decide

/-!
## C8 -/

/-- C8 (confirmed): for every requested worker setting the pool size lies
in `[1, total_threads]`; the explicit `all` override yields exactly the
total unit count; the default `80` (and the unparsable-argument path)
yields 80 percent of the units, floored, clamped below by 1. -/
theorem workerCount_bounds (arg : WorkersArg) (total_threads : Nat)
    (h : 1 ≤ total_threads) :
    1 ≤ workerCount arg total_threads
      ∧ workerCount arg total_threads ≤ total_threads
      ∧ workerCount WorkersArg.all total_threads = total_threads
      ∧ workerCount (WorkersArg.num 80) total_threads = max 1 (total_threads * 80 / 100)
      ∧ workerCount WorkersArg.invalid total_threads = max 1 (total_threads * 80 / 100) := by
  refine ⟨?_, ?_, rfl, ?_, rfl⟩
  · cases arg with
    | all => exact h
    | num pct => exact le_max_left _ _
    | invalid => exact le_max_left _ _
  · cases arg with
    | all => exact le_refl _
    | num pct =>
      have hp : (max 1 (min pct 100)).toNat ≤ 100 := by omega
      have hd : total_threads * (max 1 (min pct 100)).toNat / 100 ≤ total_threads := by
        have h1 : total_threads * (max 1 (min pct 100)).toNat ≤ total_threads * 100 :=
          Nat.mul_le_mul_left _ hp
        have h2 : total_threads * (max 1 (min pct 100)).toNat / 100 ≤ total_threads * 100 / 100 :=
          Nat.div_le_div_right h1
        have h3 : total_threads * 100 / 100 = total_threads := by omega
        omega
      simp only [workerCount]
      omega
    | invalid =>
      have hd : total_threads * 80 / 100 ≤ total_threads := by
        have h1 : total_threads * 80 ≤ total_threads * 100 := Nat.mul_le_mul_left _ (by norm_num)
        have h2 : total_threads * 80 / 100 ≤ total_threads * 100 / 100 :=
          Nat.div_le_div_right h1
        have h3 : total_threads * 100 / 100 = total_threads := by omega
        omega
      simp only [workerCount]
      omega
  · simp [workerCount]

/-- C8 witness: the bounds at the default setting with five units. -/
theorem workerCount_bounds_witness :
    1 ≤ workerCount (WorkersArg.num 80) 5
      ∧ workerCount (WorkersArg.num 80) 5 ≤ 5
      ∧ workerCount WorkersArg.all 5 = 5
      ∧ workerCount (WorkersArg.num 80) 5 = max 1 (5 * 80 / 100)
      ∧ workerCount WorkersArg.invalid 5 = max 1 (5 * 80 / 100) :=
  workerCount_bounds (WorkersArg.num 80) 5 (by decide)

/-!
## C10 -/

/-- C10 (confirmed): no path through the per-file worker moves a file to
the `manual` destination — every outcome leaves the file in place or moves
it to `riff` or `failed`.  The run outcomes of `main` are exactly
`process_file` outcomes (`runOutcomes` is a map of `process_file`), so the
manual-review destination is unreachable from the pipeline. -/
theorem process_file_never_manual (cwd : String) (inp : PFInput) :
    (process_file cwd inp).moved = none
      ∨ (process_file cwd inp).moved = some Dest.riff
      ∨ (process_file cwd inp).moved = some Dest.failed := by
  have hrt : ∀ (sb : Nat) (ts : String),
      (runTool cwd inp sb ts).moved = none
        ∨ (runTool cwd inp sb ts).moved = some Dest.riff
        ∨ (runTool cwd inp sb ts).moved = some Dest.failed := by
    intro sb ts
    unfold runTool
    by_cases h1 : (inp.tool.returncode == 0) = true
    · simp [h1]
    · by_cases h2 : containsSubstr (pyStrip inp.tool.stderr) riffSig = true
      · simp [h1, h2]
      · simp [h1, h2]
  unfold process_file
  repeat' split
  all_goals (first | exact hrt _ _ | simp)

/-!
## C3 -/

theorem pattern_fb_space_chars (f yy mm dd : String)
    (h : pattern_fb_space f = some (yy, mm, dd)) : ∃ a b : Char, yy = ⟨[a, b]⟩ := by
  unfold pattern_fb_space at h
  split at h
  · split at h
    · simp only [Option.some.injEq, Prod.mk.injEq] at h
      exact ⟨_, _, h.1.symm⟩
    · exact absurd h (by simp)
  · exact absurd h (by simp)

theorem pattern_fb_dash_chars (f yy mm dd : String)
    (h : pattern_fb_dash f = some (yy, mm, dd)) : ∃ a b : Char, yy = ⟨[a, b]⟩ := by
  unfold pattern_fb_dash at h
  split at h
  · split at h
    · simp only [Option.some.injEq, Prod.mk.injEq] at h
      exact ⟨_, _, h.1.symm⟩
    · exact absurd h (by simp)
  · exact absurd h (by simp)

theorem pyIntDigits_year (a b : Char) :
    pyIntDigits ("20" ++ (⟨[a, b]⟩ : String)) = 2000 + pyIntDigits ⟨[a, b]⟩ := by
  have h : ("20" ++ (⟨[a, b]⟩ : String)).data = ['2', '0', a, b] := by
    have h20 : ("20" : String).data = ['2', '0'] := rfl
    rw [String.data_append, h20]
    rfl
  have h2 : digitVal '2' = 2 := rfl
  have h0 : digitVal '0' = 0 := rfl
  simp only [pyIntDigits, h, digitsVal, List.foldl, h2, h0]
  omega

/-- C3 (confirmed): when no catalog rule produced a timestamp and a
filename matches a fallback shape (six digits then whitespace; otherwise
six digits then a dash), the year is read as `2000 + YY` and a midnight
calendar date is built; an impossible date makes the worker return a
`notmatch` outcome with the file moved to `failed` and a fallback-specific
parse-error message that differs from the no-pattern-matched message, with
no fall-through to the other fallback rule. -/
theorem fallback_invalid_date (cwd : String) (inp : PFInput) (size_before : Nat)
    (hfile : inp.isFile = true) (hsb : inp.sizeBefore = some size_before)
    (hcat : catalogExtract (resolvePatterns inp.externalPatterns) inp.fname = none) :
    (∀ yy mm dd, pattern_fb_space inp.fname = some (yy, mm, dd) →
      pyIntDigits ("20" ++ yy) = 2000 + pyIntDigits yy
        ∧ (∀ dt, mkDateTime (pyIntDigits ("20" ++ yy)) (pyIntDigits mm) (pyIntDigits dd) 0 0 0 0
              = some dt →
            dt.year = 2000 + pyIntDigits yy ∧ dt.hour = 0 ∧ dt.minute = 0 ∧ dt.second = 0)
        ∧ (mkDateTime (pyIntDigits ("20" ++ yy)) (pyIntDigits mm) (pyIntDigits dd) 0 0 0 0
              = none →
            process_file cwd inp =
              ⟨inp.fname,
                some ("Fallback1 YYMMDD parse error → moved to " ++ failedPath cwd inp.fname),
                "notmatch", some (size_before, size_before), some Dest.failed⟩
              ∧ ("Fallback1 YYMMDD parse error → moved to " ++ failedPath cwd inp.fname)
                  ≠ ("No pattern matched → moved to " ++ failedPath cwd inp.fname)))
    ∧ (∀ yy mm dd, pattern_fb_space inp.fname = none →
        pattern_fb_dash inp.fname = some (yy, mm, dd) →
        pyIntDigits ("20" ++ yy) = 2000 + pyIntDigits yy
          ∧ (∀ dt, mkDateTime (pyIntDigits ("20" ++ yy)) (pyIntDigits mm) (pyIntDigits dd) 0 0 0 0
                = some dt →
              dt.year = 2000 + pyIntDigits yy ∧ dt.hour = 0 ∧ dt.minute = 0 ∧ dt.second = 0)
          ∧ (mkDateTime (pyIntDigits ("20" ++ yy)) (pyIntDigits mm) (pyIntDigits dd) 0 0 0 0
                = none →
              process_file cwd inp =
                ⟨inp.fname,
                  some ("Fallback2 YYMMDD parse error → moved to " ++ failedPath cwd inp.fname),
                  "notmatch", some (size_before, size_before), some Dest.failed⟩
                ∧ ("Fallback2 YYMMDD parse error → moved to " ++ failedPath cwd inp.fname)
                    ≠ ("No pattern matched → moved to " ++ failedPath cwd inp.fname))) := by
  constructor
  · intro yy mm dd hfb
    obtain ⟨a, b, hyy⟩ := pattern_fb_space_chars _ _ _ _ hfb
    refine ⟨by rw [hyy]; exact pyIntDigits_year a b, ?_, ?_⟩
    · intro dt hdt
      unfold mkDateTime at hdt
      split at hdt
      · rw [Option.some.injEq] at hdt
        subst hdt
        exact ⟨by rw [hyy]; exact pyIntDigits_year a b, rfl, rfl, rfl⟩
      · exact absurd hdt (by simp)
    · intro hmk
      constructor
      · simp [process_file, hfile, hsb, hcat, hfb, hmk]
      · exact append_left_ne _ _ _ (by decide)
  · intro yy mm dd hnos hfb
    obtain ⟨a, b, hyy⟩ := pattern_fb_dash_chars _ _ _ _ hfb
    refine ⟨by rw [hyy]; exact pyIntDigits_year a b, ?_, ?_⟩
    · intro dt hdt
      unfold mkDateTime at hdt
      split at hdt
      · rw [Option.some.injEq] at hdt
        subst hdt
        exact ⟨by rw [hyy]; exact pyIntDigits_year a b, rfl, rfl, rfl⟩
      · exact absurd hdt (by simp)
    · intro hmk
      constructor
      · simp [process_file, hfile, hsb, hcat, hnos, hfb, hmk]
      · exact append_left_ne _ _ _ (by decide)

/-- C3 witness: the worker input `inpC3` (`"131301 x"`, month 13) is routed
to `failed` with the Fallback1 parse-error outcome. -/
theorem fallback_invalid_date_witness :
    process_file "/data" inpC3 =
      ⟨"131301 x",
        some ("Fallback1 YYMMDD parse error → moved to " ++ failedPath "/data" "131301 x"),
        "notmatch", some (7, 7), some Dest.failed⟩ :=
  ((((fallback_invalid_date "/data" inpC3 7 rfl rfl rfl).1 "13" "13" "01" rfl).2.2) rfl).1

/-!
## C4 -/

/-- C4 (amended): on a non-zero exiftool return code the worker records a
`notmatch` outcome and inspects stripped stderr for the RIFF signature: if
present, the file moves to `riff` with the fixed `RIFF detected` note (the
diagnostic text itself is not preserved in that message); otherwise it
moves to `failed` with the full diagnostic text embedded.  Both messages
carry the routing destination. -/
theorem tool_failure_routing (cwd : String) (inp : PFInput) (size_before : Nat)
    (dt : PyDateTime) (ts : String)
    (hfile : inp.isFile = true) (hsb : inp.sizeBefore = some size_before)
    (hcat : catalogExtract (resolvePatterns inp.externalPatterns) inp.fname = some (dt, ts))
    (hrc : ¬ inp.tool.returncode = 0) :
    (containsSubstr (pyStrip inp.tool.stderr) riffSig = true →
      process_file cwd inp =
        ⟨inp.fname, some ("RIFF detected → moved to " ++ riffPath cwd inp.fname),
          "notmatch", some (size_before, inp.sizeAfter.getD size_before), some Dest.riff⟩)
    ∧ (containsSubstr (pyStrip inp.tool.stderr) riffSig = false →
        process_file cwd inp =
          ⟨inp.fname,
            some ("Exiftool error: " ++ pyStrip inp.tool.stderr
                ++ " → moved to " ++ failedPath cwd inp.fname),
            "notmatch", some (size_before, inp.sizeAfter.getD size_before), some Dest.failed⟩) := by
  have hrc2 : (inp.tool.returncode == 0) = false := by
    rw [beq_eq_false_iff_ne]
    exact hrc
  constructor
  · intro hb
    simp [process_file, hfile, hsb, hcat, runTool, hrc2, hb]
  · intro hb
    simp [process_file, hfile, hsb, hcat, runTool, hrc2, hb]

/-- C4 (counterexample): at `inpC4` the tool failure is routed to `riff`
and recorded as `notmatch`, but the message does not contain the tool
diagnostic text, refuting the claim that the diagnostic text is preserved
in the message in both routing cases. -/
theorem tool_failure_message_counterexample :
    (process_file "/data" inpC4).status = "notmatch"
      ∧ (process_file "/data" inpC4).moved = some Dest.riff
      ∧ containsSubstr ((process_file "/data" inpC4).msg.getD "") (pyStrip inpC4.tool.stderr)
          = false := by
  decide

/-- C4 witness: the riff branch of the amended theorem at `inpC4`. -/
theorem tool_failure_routing_witness :
    process_file "/data" inpC4 =
      ⟨"x2023", some ("RIFF detected → moved to " ++ riffPath "/data" "x2023"),
        "notmatch", some (100, 100), some Dest.riff⟩ :=
  (tool_failure_routing "/data" inpC4 100 ⟨2023, 1, 1, 0, 0, 0, 0⟩ "2023" rfl rfl rfl
      (by decide)).1 (by decide)

/-!
## C5 -/

theorem outcomeSizeLines_of_unchanged (o : Outcome) (sb : Nat) (h : o.sizes = some (sb, sb)) :
    outcomeSizeLines o = [] := by
  unfold outcomeSizeLines
  rw [h]
  simp

theorem process_file_sizes_unchanged (cwd : String) (inp : PFInput) (sb : Nat)
    (hfile : inp.isFile = true) (hsb : inp.sizeBefore = some sb)
    (hafter : inp.sizeAfter = none) :
    (process_file cwd inp).sizes = some (sb, sb) := by
  have hrt : ∀ ts, (runTool cwd inp sb ts).sizes = some (sb, sb) := by
    intro ts
    unfold runTool
    rw [hafter]
    by_cases h1 : (inp.tool.returncode == 0) = true
    · simp [h1]
    · by_cases h2 : containsSubstr (pyStrip inp.tool.stderr) riffSig = true
      · simp [h1, h2]
      · simp [h1, h2]
  unfold process_file
  simp only [hfile, hsb, Bool.not_true, Bool.false_eq_true, if_false]
  repeat' split
  all_goals (first | exact hrt _ | rfl)

/-- C5 (confirmed): a file that vanished between enumeration and processing
yields a `skip` outcome counted under `skipped`; a failed pre-size read
yields the error status with no size report; a failed post-size read
degrades the size report to unchanged (before = after), so no size-change
line is written.  In every case the worker returns a well-formed outcome
rather than aborting. -/
theorem filesystem_error_handling (cwd : String) (inp : PFInput) (s : Summary) :
    (inp.isFile = false →
      (process_file cwd inp).status = "skip"
        ∧ (applyOutcome s (process_file cwd inp)).skipped = s.skipped + 1
        ∧ outcomeSizeLines (process_file cwd inp) = [])
    ∧ (inp.isFile = true → inp.sizeBefore = none →
        (process_file cwd inp).status = "error_size_before"
          ∧ (process_file cwd inp).sizes = none
          ∧ outcomeSizeLines (process_file cwd inp) = [])
    ∧ (∀ size_before, inp.isFile = true → inp.sizeBefore = some size_before →
        inp.sizeAfter = none →
        (process_file cwd inp).sizes = some (size_before, size_before)
          ∧ outcomeSizeLines (process_file cwd inp) = []) := by
  refine ⟨?_, ?_, ?_⟩
  · intro h0
    have hpf : process_file cwd inp = ⟨inp.fname, none, "skip", none, none⟩ := by
      simp [process_file, h0]
    rw [hpf]
    refine ⟨rfl, ?_, rfl⟩
    simp [applyOutcome, applyStatus, applySizes]
  · intro hfile hsb
    have hpf : process_file cwd inp = ⟨inp.fname, none, "error_size_before", none, none⟩ := by
      simp [process_file, hfile, hsb]
    rw [hpf]
    exact ⟨rfl, rfl, rfl⟩
  · intro size_before hfile hsb hafter
    have h := process_file_sizes_unchanged cwd inp size_before hfile hsb hafter
    exact ⟨h, outcomeSizeLines_of_unchanged _ _ h⟩

/-- C5 witness: the vanished-file case at `inpVanished`. -/
theorem filesystem_error_handling_witness :
    (process_file "/data" inpVanished).status = "skip"
      ∧ (applyOutcome s0 (process_file "/data" inpVanished)).skipped = s0.skipped + 1
      ∧ outcomeSizeLines (process_file "/data" inpVanished) = [] :=
  (filesystem_error_handling "/data" inpVanished s0).1 rfl

/-!
## C6 and C9

The `while True` probe of `move_to_manual` terminates because the candidate
names for distinct counters are distinct strings while the destination
directory holds finitely many names.  The lemmas below make that argument:
decimal rendering is injective, so some candidate within the first
`existing.length + 1` probes is free. -/

theorem natToStrAux_irrel (fa : Nat) : ∀ (fb n : Nat), n < fa → n < fb →
    natToStrAux fa n = natToStrAux fb n := by
  induction fa with
  | zero => intro fb n ha hb; omega
  | succ fa ih =>
    intro fb n ha hb
    cases fb with
    | zero => omega
    | succ fb =>
      by_cases hn : n < 10
      · simp only [natToStrAux, if_pos hn]
      · simp only [natToStrAux, if_neg hn]
        have hdiv : n / 10 < n := Nat.div_lt_self (by omega) (by omega)
        rw [ih fb (n / 10) (by omega) (by omega)]

theorem natToStrAux_ne_nil (fuel n : Nat) : natToStrAux (fuel + 1) n ≠ [] := by
  by_cases hn : n < 10
  · simp [natToStrAux, if_pos hn]
  · simp [natToStrAux, if_neg hn]

theorem digitChar_inj (a b : Nat) (ha : a < 10) (hb : b < 10)
    (h : Nat.digitChar a = Nat.digitChar b) : a = b := by
  interval_cases a <;> interval_cases b <;> revert h <;> decide

theorem natToStr_inj (a : Nat) : ∀ b : Nat, natToStr a = natToStr b → a = b := by
  induction a using Nat.strong_induction_on with
  | _ a ih =>
    intro b h
    have h' : natToStrAux (a + 1) a = natToStrAux (b + 1) b := congrArg String.data h
    by_cases ha : a < 10 <;> by_cases hb : b < 10
    · simp only [natToStrAux, if_pos ha, if_pos hb, List.cons.injEq, and_true] at h'
      exact digitChar_inj a b ha hb h'
    · exfalso
      simp only [natToStrAux, if_pos ha, if_neg hb] at h'
      have hlen := congrArg List.length h'
      rw [List.length_append, List.length_singleton, List.length_singleton] at hlen
      have hz : natToStrAux b (b / 10) = [] := List.length_eq_zero.mp (by omega)
      obtain ⟨k, hk⟩ : ∃ k, b = k + 1 := ⟨b - 1, by omega⟩
      rw [hk] at hz
      exact natToStrAux_ne_nil k ((k + 1) / 10) hz
    · exfalso
      simp only [natToStrAux, if_neg ha, if_pos hb] at h'
      have hlen := congrArg List.length h'
      rw [List.length_append, List.length_singleton, List.length_singleton] at hlen
      have hz : natToStrAux a (a / 10) = [] := List.length_eq_zero.mp (by omega)
      obtain ⟨k, hk⟩ : ∃ k, a = k + 1 := ⟨a - 1, by omega⟩
      rw [hk] at hz
      exact natToStrAux_ne_nil k ((k + 1) / 10) hz
    · simp only [natToStrAux, if_neg ha, if_neg hb] at h'
      have hrev := congrArg List.reverse h'
      simp only [List.reverse_append, List.reverse_cons, List.reverse_nil, List.nil_append,
        List.cons_append, List.cons.injEq] at hrev
      obtain ⟨h1, h2⟩ := hrev
      have hmod : a % 10 = b % 10 :=
        digitChar_inj _ _ (Nat.mod_lt _ (by omega)) (Nat.mod_lt _ (by omega)) h1
      have hAB : natToStrAux a (a / 10) = natToStrAux b (b / 10) := List.reverse_inj.mp h2
      have hda : natToStrAux a (a / 10) = natToStrAux (a / 10 + 1) (a / 10) :=
        natToStrAux_irrel a (a / 10 + 1) (a / 10)
          (by have := Nat.div_lt_self (show 0 < a by omega) (show 1 < 10 by omega); omega)
          (by omega)
      have hdb : natToStrAux b (b / 10) = natToStrAux (b / 10 + 1) (b / 10) :=
        natToStrAux_irrel b (b / 10 + 1) (b / 10)
          (by have := Nat.div_lt_self (show 0 < b by omega) (show 1 < 10 by omega); omega)
          (by omega)
      have hstr : natToStr (a / 10) = natToStr (b / 10) :=
        congrArg String.mk (hda.symm.trans (hAB.trans hdb))
      have hdiv : a / 10 = b / 10 :=
        ih (a / 10) (Nat.div_lt_self (by omega) (by omega)) (b / 10) hstr
      have hma := Nat.div_add_mod a 10
      have hmb := Nat.div_add_mod b 10
      omega

theorem mkCand_inj (name ext : String) (c1 c2 : Nat)
    (h : mkCand name ext c1 = mkCand name ext c2) : c1 = c2 := by
  unfold mkCand at h
  have h' := congrArg String.data h
  simp only [String.data_append] at h'
  have h1 := List.append_cancel_right h'
  have h2 := List.append_cancel_right h1
  have h3 := List.append_cancel_left h2
  exact natToStr_inj c1 c2 (String.ext h3)

theorem exists_free_cand (existing : List String) (name ext : String) :
    ∃ k, k < existing.length + 1 ∧ mkCand name ext (1 + k) ∉ existing := by
  by_contra hc
  push_neg at hc
  have hinj : Set.InjOn (fun k => mkCand name ext (1 + k))
      ↑(Finset.range (existing.length + 1)) := by
    intro x _ y _ hxy
    have := mkCand_inj name ext (1 + x) (1 + y) hxy
    omega
  have hsub : (Finset.range (existing.length + 1)).image (fun k => mkCand name ext (1 + k))
      ⊆ existing.toFinset := by
    intro t ht
    simp only [Finset.mem_image, Finset.mem_range] at ht
    obtain ⟨k, hk, rfl⟩ := ht
    exact List.mem_toFinset.mpr (hc k hk)
  have hcard := Finset.card_le_card hsub
  rw [Finset.card_image_of_injOn hinj, Finset.card_range] at hcard
  have hlist := List.toFinset_card_le existing
  omega

theorem probeFree_spec (existing : List String) (name ext : String) :
    ∀ (fuel c : Nat), (∃ k, k < fuel ∧ mkCand name ext (c + k) ∉ existing) →
      probeFree existing name ext fuel c ∉ existing
        ∧ ∃ j, probeFree existing name ext fuel c = mkCand name ext (c + j)
            ∧ ∀ i, i < j → mkCand name ext (c + i) ∈ existing := by
  intro fuel
  induction fuel with
  | zero => intro c h; obtain ⟨k, hk, _⟩ := h; omega
  | succ fuel ih =>
    intro c h
    by_cases hmem : mkCand name ext c ∈ existing
    · have hrec : ∃ k, k < fuel ∧ mkCand name ext (c + 1 + k) ∉ existing := by
        obtain ⟨k, hk, hfree⟩ := h
        cases k with
        | zero => exact absurd hmem (by simpa using hfree)
        | succ k2 =>
          refine ⟨k2, by omega, ?_⟩
          have he : c + 1 + k2 = c + (k2 + 1) := by omega
          rw [he]
          exact hfree
      have hres := ih (c + 1) hrec
      constructor
      · simp only [probeFree, if_pos hmem]
        exact hres.1
      · obtain ⟨j, heq, hall⟩ := hres.2
        refine ⟨j + 1, ?_, ?_⟩
        · simp only [probeFree, if_pos hmem]
          rw [heq]
          have he : c + 1 + j = c + (j + 1) := by omega
          rw [he]
        · intro i hi
          cases i with
          | zero => simpa using hmem
          | succ i2 =>
            have h2 := hall i2 (by omega)
            have he : c + 1 + i2 = c + (i2 + 1) := by omega
            rwa [he] at h2
    · constructor
      · simp only [probeFree, if_neg hmem]
        exact hmem
      · refine ⟨0, ?_, ?_⟩
        · simp only [probeFree, if_neg hmem]
          rw [Nat.add_zero]
        · intro i hi
          exact absurd hi (Nat.not_lt_zero i)

theorem move_to_manual_name_spec (existing : List String) (base : String) :
    move_to_manual_name existing base ∉ existing
      ∧ (base ∈ existing →
          ∃ c, 1 ≤ c
            ∧ move_to_manual_name existing base = mkCand (splitext base).1 (splitext base).2 c
            ∧ ∀ i, 1 ≤ i → i < c → mkCand (splitext base).1 (splitext base).2 i ∈ existing) := by
  by_cases h : base ∈ existing
  · obtain ⟨k, hk, hfree⟩ := exists_free_cand existing (splitext base).1 (splitext base).2
    have hspec := probeFree_spec existing (splitext base).1 (splitext base).2
        (existing.length + 1) 1 ⟨k, hk, hfree⟩
    constructor
    · simp only [move_to_manual_name, if_pos h]
      exact hspec.1
    · intro _
      obtain ⟨j, heq, hall⟩ := hspec.2
      refine ⟨1 + j, by omega, ?_, ?_⟩
      · simp only [move_to_manual_name, if_pos h]
        exact heq
      · intro i h1 hi
        have h2 := hall (i - 1) (by omega)
        have h3 : 1 + (i - 1) = i := by omega
        rwa [h3] at h2
  · constructor
    · simp only [move_to_manual_name, if_neg h]
      exact h
    · intro hmem
      exact absurd hmem h

/-- C6 (confirmed): when the destination basename is already taken in the
`manual` directory, `move_to_manual` probes `name (1)ext`, `name (2)ext`,
... upward, returns the first free candidate (every smaller counter is
occupied), and the chosen name is never one that already exists; in
particular a second `foo.jpg` lands as `foo (1).jpg`. -/
theorem manual_collision_disambiguation (existing : List String) (base : String)
    (h : base ∈ existing) :
    move_to_manual_name existing base ∉ existing
      ∧ (∃ c, 1 ≤ c
          ∧ move_to_manual_name existing base = mkCand (splitext base).1 (splitext base).2 c
          ∧ ∀ i, 1 ≤ i → i < c → mkCand (splitext base).1 (splitext base).2 i ∈ existing)
      ∧ move_to_manual_name ["foo.jpg"] "foo.jpg" = "foo (1).jpg" :=
  ⟨(move_to_manual_name_spec existing base).1,
   (move_to_manual_name_spec existing base).2 h,
   by decide⟩

/-- C6 witness: a second `foo.jpg` against an occupied `manual` directory
is renamed to `foo (1).jpg` and does not collide. -/
theorem manual_collision_disambiguation_witness :
    move_to_manual_name ["foo.jpg"] "foo.jpg" ∉ (["foo.jpg"] : List String)
      ∧ move_to_manual_name ["foo.jpg"] "foo.jpg" = "foo (1).jpg" :=
  ⟨(manual_collision_disambiguation ["foo.jpg"] "foo.jpg" (by decide)).1,
   (manual_collision_disambiguation ["foo.jpg"] "foo.jpg" (by decide)).2.2⟩

/-- C9 (confirmed): `safe_move` — the move helper behind the `riff` and
`failed` holding directories — picks the original basename without
consulting the destination contents, so a file of the same name there is
silently overwritten (`shutil.copy2` replaces it); no parenthesized
disambiguator is ever applied on these routes, unlike `move_to_manual`,
which always returns an unoccupied name. -/
theorem safe_move_overwrites (existing : List String) (base : String) (h : base ∈ existing) :
    safe_move_basename existing base = base
      ∧ safe_move_basename existing base ∈ existing
      ∧ move_to_manual_name existing base ∉ existing :=
  ⟨rfl, h, (move_to_manual_name_spec existing base).1⟩

/-- C9 witness: a colliding `a.jpg` keeps its name under `safe_move` while
`move_to_manual` would rename it. -/
theorem safe_move_overwrites_witness :
    safe_move_basename ["a.jpg"] "a.jpg" = "a.jpg"
      ∧ safe_move_basename ["a.jpg"] "a.jpg" ∈ (["a.jpg"] : List String)
      ∧ move_to_manual_name ["a.jpg"] "a.jpg" ∉ (["a.jpg"] : List String) :=
  safe_move_overwrites ["a.jpg"] "a.jpg" (by decide)

end MMU
